import Mathlib

/-!
Verification of the folder-synchronization tool (`src/main.py`, `src/utils.py`)
against its natural-language specification.

The embedding models the two directory trees (source and replica) as finite
rose trees of named nodes.  Every effectful function of the Python code is
translated into a pure Lean function that threads the replica tree explicitly,
returns the list of observable operations it performed (directory creations,
checksum computations, copy invocations, deletions), and an `Option Err`
recording an exception escaping the function (`none` = the function returned
normally).  A Python `try/except` that logs and swallows an exception is
translated by discarding the error component at exactly the place where the
`except` clause sits in the source.

MD5 digests are modelled as the file's full byte content (`Digest := String`):
the spec defines two files content-equal iff their digests are bit-equal, and
the only property of MD5 the code relies on is that identical content yields
identical digests, which holds for this fingerprint.
-/

namespace FolderSync

/-- Relative path of an entry below a root, as a list of path components
(the posix components of `item.relative_to(source_path)` in the code). -/
abbrev Path := List String

/-- Content digest as produced by `calculate_checksum` (`utils.py`).  Modelled
as the full file content; see the header comment. -/
abbrev Digest := String

/-- Exceptions that the modelled filesystem primitives can raise, mirroring
the Python exception classes that `pathlib` raises. -/
inductive Err where
  | fileNotFound
  | isADirectory
  | notADirectory
  | dirNotEmpty
  | fileExists
  | other
deriving DecidableEq, Repr

/-- One node of a directory tree: a regular file with its byte content, or a
directory with its named children in listing order. -/
inductive FNode where
  | file (content : String)
  | dir (children : List (String × FNode))

/-- A root (source or replica) is the list of named children of the root
directory, in listing order. -/
abbrev FS := List (String × FNode)

/-- Observable operations performed on the replica during a pass.  `copy`
records an invocation of `copy_or_replace_file` (entered even when the
underlying I/O then fails), `checksum` an invocation of `calculate_checksum`
from `replicate_file`, the rest record successful directory creations and
deletions. -/
inductive Op where
  | mkdir (p : Path)
  | checksum (p : Path)
  | copy (src dst : Path) (replace : Bool)
  | unlink (p : Path)
  | rmdir (p : Path)
deriving DecidableEq, Repr

/-- Look up a name in a children list (first binding wins, as in a real
directory listing). -/
def lookupName : List (String × FNode) → String → Option FNode
  | [], _ => none
  | (n, node) :: rest, s => if n = s then some node else lookupName rest s

/-- Resolve a non-empty relative path below a root, as `pathlib` resolves
`root / item_path`.  The empty path (the root itself) resolves to `none`;
no code path of the program looks up the root as an entry. -/
def findIn : List (String × FNode) → Path → Option FNode
  | _, [] => none
  | cs, [s] => lookupName cs s
  | cs, s :: rest =>
    match lookupName cs s with
    | some (FNode.dir cs2) => findIn cs2 rest
    | _ => none

/-- Replace the first binding of `s` in a children list, or append a new
binding when `s` is absent. -/
def replaceName : List (String × FNode) → String → FNode → List (String × FNode)
  | [], s, node => [(s, node)]
  | (n, old) :: rest, s, node =>
    if n = s then (n, node) :: rest else (n, old) :: replaceName rest s node

/-- Remove the first binding of `s` from a children list. -/
def removeName : List (String × FNode) → String → List (String × FNode)
  | [], _ => []
  | (n, old) :: rest, s => if n = s then rest else (n, old) :: removeName rest s

/-- Apply `f` to the first binding of `s` in a children list (no change when
`s` is absent). -/
def mapAt : List (String × FNode) → String → (FNode → FNode) → List (String × FNode)
  | [], _, _ => []
  | (n, old) :: rest, s, f =>
    if n = s then (n, f old) :: rest else (n, old) :: mapAt rest s f

/-- Write `node` at path `p`, assuming every proper ancestor of `p` exists
and is a directory (the callers check this before writing). -/
def setIn : List (String × FNode) → Path → FNode → List (String × FNode)
  | cs, [], _ => cs
  | cs, [s], node => replaceName cs s node
  | cs, s :: rest, node =>
    mapAt cs s (fun child =>
      match child with
      | FNode.dir cs2 => FNode.dir (setIn cs2 rest node)
      | other => other)

/-- Remove the entry at path `p` (no change when `p` is absent). -/
def removeIn : List (String × FNode) → Path → List (String × FNode)
  | cs, [] => cs
  | cs, [s] => removeName cs s
  | cs, s :: rest =>
    mapAt cs s (fun child =>
      match child with
      | FNode.dir cs2 => FNode.dir (removeIn cs2 rest)
      | other => other)

/-- Model of `path.exists()`. -/
def pathExists (fs : FS) (p : Path) : Bool := (findIn fs p).isSome

/-- Model of `path.is_dir()`. -/
def is_dir (fs : FS) (p : Path) : Bool :=
  match findIn fs p with
  | some (FNode.dir _) => true
  | _ => false

/-- Model of `path.is_file()`. -/
def is_file (fs : FS) (p : Path) : Bool :=
  match findIn fs p with
  | some (FNode.file _) => true
  | _ => false

/-- Model of `path.open("rb")` followed by reading the whole stream: raises
`FileNotFoundError` when the path is absent and `IsADirectoryError` when it
names a directory. -/
def openRead (fs : FS) (p : Path) : Except Err String :=
  match findIn fs p with
  | some (FNode.file c) => Except.ok c
  | some (FNode.dir _) => Except.error Err.isADirectory
  | none => Except.error Err.fileNotFound

/-- Model of `path.open("wb")` followed by writing `c`: the destination is
created if absent and truncated if present; opening fails when the path is a
directory, when the parent is a file (`NotADirectoryError`) or when the
parent is missing (`FileNotFoundError`). -/
def writeFile (fs : FS) (p : Path) (c : String) : Except Err FS :=
  match p with
  | [] => Except.error Err.isADirectory
  | _ :: _ =>
    match findIn fs p with
    | some (FNode.dir _) => Except.error Err.isADirectory
    | _ =>
      if p.dropLast.isEmpty then Except.ok (setIn fs p (FNode.file c))
      else
        match findIn fs p.dropLast with
        | some (FNode.dir _) => Except.ok (setIn fs p (FNode.file c))
        | some (FNode.file _) => Except.error Err.notADirectory
        | none => Except.error Err.fileNotFound

/-- Model of `path.mkdir(parents=True, exist_ok=True)`: walk the path,
creating missing directories; an existing directory on the way is fine
(`exist_ok`), an existing file raises (`FileExistsError` at the target,
`NotADirectoryError` at an ancestor). -/
def mkdirIn : List (String × FNode) → Path → Except Err (List (String × FNode))
  | cs, [] => Except.ok cs
  | cs, s :: rest =>
    match lookupName cs s with
    | some (FNode.dir cs2) =>
      (mkdirIn cs2 rest).map (fun cs2x => replaceName cs s (FNode.dir cs2x))
    | some (FNode.file _) =>
      Except.error (if rest.isEmpty then Err.fileExists else Err.notADirectory)
    | none =>
      (mkdirIn [] rest).map (fun cs2x => replaceName cs s (FNode.dir cs2x))

/-- Model of `path.unlink()`. -/
def pyUnlink (fs : FS) (p : Path) : Except Err FS :=
  match findIn fs p with
  | some (FNode.file _) => Except.ok (removeIn fs p)
  | some (FNode.dir _) => Except.error Err.isADirectory
  | none => Except.error Err.fileNotFound

/-- Model of `path.rmdir()`: only an existing empty directory can be removed. -/
def pyRmdir (fs : FS) (p : Path) : Except Err FS :=
  match findIn fs p with
  | some (FNode.dir []) => Except.ok (removeIn fs p)
  | some (FNode.dir (_ :: _)) => Except.error Err.dirNotEmpty
  | some (FNode.file _) => Except.error Err.notADirectory
  | none => Except.error Err.fileNotFound

/-- Model of `calculate_checksum` (`utils.py`): streams the file and returns
its digest.  `FileNotFoundError`, `IOError` and any other exception are
logged and re-raised, so the error propagates to the caller unchanged. -/
def calculate_checksum (fs : FS) (p : Path) : Except Err Digest :=
  openRead fs p

/-- Model of `create_folder` (`utils.py`): `if not path.exists():
path.mkdir(parents=True, exist_ok=True)`.  On `OSError` or any other
exception the error is logged and re-raised. -/
def create_folder (rep : FS) (p : Path) : FS × List Op × Option Err :=
  if pathExists rep p then (rep, [], none)
  else
    match mkdirIn rep p with
    | Except.ok rep1 => (rep1, [Op.mkdir p], none)
    | Except.error e => (rep, [], some e)

/-- Model of `copy_or_replace_file` (`utils.py`): opens the source for
reading and the destination for writing and streams the content across.  The
whole body sits in a `try` whose `except Exception` clause only logs, so the
function never raises: on failure the destination is left as it was and the
error is discarded.  The `Op.copy` event records the invocation itself. -/
def copy_or_replace_file (src rep : FS) (srcP dstP : Path) (replace : Bool) :
    FS × List Op × Option Err :=
  let attempt : FS :=
    match openRead src srcP with
    | Except.error _ => rep
    | Except.ok content =>
      match writeFile rep dstP content with
      | Except.error _ => rep
      | Except.ok rep1 => rep1
  (attempt, [Op.copy srcP dstP replace], none)

/-- Model of `replicate_file` (`utils.py`): if the replica path exists,
compare the two digests and overwrite on mismatch; otherwise copy
unconditionally.  Exceptions raised by `calculate_checksum` propagate. -/
def replicate_file (src rep : FS) (srcP dstP : Path) : FS × List Op × Option Err :=
  if pathExists rep dstP then
    match calculate_checksum src srcP with
    | Except.error e => (rep, [Op.checksum srcP], some e)
    | Except.ok checksum_source =>
      match calculate_checksum rep dstP with
      | Except.error e => (rep, [Op.checksum srcP, Op.checksum dstP], some e)
      | Except.ok checksum_replica =>
        if checksum_source ≠ checksum_replica then
          let c := copy_or_replace_file src rep srcP dstP true
          (c.1, [Op.checksum srcP, Op.checksum dstP] ++ c.2.1, c.2.2)
        else (rep, [Op.checksum srcP, Op.checksum dstP], none)
  else
    copy_or_replace_file src rep srcP dstP false

/-- Children loop of `delete_path` (`utils.py`): `for item in path.iterdir():
if item.is_dir(): delete_path(item) else: item.unlink()`, followed for a
directory child by that child's own `path.rmdir()`.  The recursive
`delete_path(item)` call carries its own `try/except`, so errors below a
directory child are caught there (`none`), while a failing `item.unlink()`
propagates to the handler of the enclosing `delete_path`.  In this
single-threaded model the children listing taken at entry agrees with the
live state, since only entries already visited have been removed. -/
def delete_list : Path → List (String × FNode) → FS → FS × List Op × Option Err
  | _, [], fs => (fs, [], none)
  | p, (name, c) :: rest, fs =>
    let q := p ++ [name]
    let step : FS × List Op × Option Err :=
      match c with
      | FNode.file _ =>
        match pyUnlink fs q with
        | Except.ok fs1 => (fs1, [Op.unlink q], none)
        | Except.error e => (fs, [], some e)
      | FNode.dir cs =>
        match delete_list q cs fs with
        | (fs1, o1, some _) => (fs1, o1, none)
        | (fs1, o1, none) =>
          match pyRmdir fs1 q with
          | Except.ok fs2 => (fs2, o1 ++ [Op.rmdir q], none)
          | Except.error _ => (fs1, o1, none)
    match step with
    | (fs1, o1, some e) => (fs1, o1, some e)
    | (fs1, o1, none) =>
      match delete_list p rest fs1 with
      | (fs2, o2, e2) => (fs2, o1 ++ o2, e2)

/-- Model of `delete_path` (`utils.py`): unlink a file, recursively empty and
remove a directory, silently skip a path that is neither.  The trailing
`except FileNotFoundError` and `except Exception` clauses log and swallow
every exception, which the final projection to `none` translates. -/
def delete_path (fs : FS) (p : Path) : FS × List Op × Option Err :=
  let body : FS × List Op × Option Err :=
    match findIn fs p with
    | some (FNode.file _) =>
      match pyUnlink fs p with
      | Except.ok fs1 => (fs1, [Op.unlink p], none)
      | Except.error e => (fs, [], some e)
    | some (FNode.dir cs) =>
      match delete_list p cs fs with
      | (fs1, o1, some e) => (fs1, o1, some e)
      | (fs1, o1, none) =>
        match pyRmdir fs1 p with
        | Except.ok fs2 => (fs2, o1 ++ [Op.rmdir p], none)
        | Except.error e => (fs1, o1, some e)
    | none => (fs, [], none)
  (body.1, body.2.1, none)

/-- Body of the loop in `synchronize_folders` (`main.py`): directories get
`create_folder`, files get `replicate_file`, anything else is skipped.  The
`with lock:` around `replicate_file` is a no-op in this sequential model. -/
def sync_step (src rep : FS) (p : Path) : FS × List Op × Option Err :=
  if is_dir src p then create_folder rep p
  else if is_file src p then replicate_file src rep p p
  else (rep, [], none)

/-- Model of `synchronize_folders` (`main.py`).  The loop body has no
`try/except`, so an exception escaping one entry's handling aborts the
remaining entries and propagates. -/
def synchronize_folders : List Path → FS → FS → FS × List Op × Option Err
  | [], _, rep => (rep, [], none)
  | p :: rest, src, rep =>
    match sync_step src rep p with
    | (rep1, o1, some e) => (rep1, o1, some e)
    | (rep1, o1, none) =>
      match synchronize_folders rest src rep1 with
      | (rep2, o2, e2) => (rep2, o1 ++ o2, e2)

/-- Body of the loop in `clean_up_replica` (`main.py`): delete the replica
entry when the corresponding source path does not exist. -/
def clean_step (src rep : FS) (p : Path) : FS × List Op × Option Err :=
  if pathExists src p then (rep, [], none) else delete_path rep p

/-- Model of `clean_up_replica` (`main.py`).  As in the source the loop has
no `try/except`; an exception escaping one entry would abort the rest. -/
def clean_up_replica : List Path → FS → FS → FS × List Op × Option Err
  | [], _, rep => (rep, [], none)
  | p :: rest, src, rep =>
    match clean_step src rep p with
    | (rep1, o1, some e) => (rep1, o1, some e)
    | (rep1, o1, none) =>
      match clean_up_replica rest src rep1 with
      | (rep2, o2, e2) => (rep2, o1 ++ o2, e2)

/-- Model of `process_without_threads` (`main.py`): the full propagate phase,
then the full prune phase, sequentially. -/
def process_without_threads (source_items replica_items : List Path) (src rep : FS) :
    FS × List Op × Option Err :=
  match synchronize_folders source_items src rep with
  | (rep1, o1, some e) => (rep1, o1, some e)
  | (rep1, o1, none) =>
    match clean_up_replica replica_items src rep1 with
    | (rep2, o2, e2) => (rep2, o1 ++ o2, e2)

/-- Enumeration underlying `get_items_chunks` (`utils.py`):
`source_path.glob('**/*')` yields every entry below the root as a
root-relative path, each directory before its own children. -/
def listPathsFrom : List (String × FNode) → Path → List Path
  | [], _ => []
  | (name, FNode.file _) :: rest, pre => (pre ++ [name]) :: listPathsFrom rest pre
  | (name, FNode.dir cs) :: rest, pre =>
    (pre ++ [name]) :: (listPathsFrom cs (pre ++ [name]) ++ listPathsFrom rest pre)

/-- Relative paths of all entries below a root, in enumeration order. -/
def listPaths (fs : FS) : List Path := listPathsFrom fs []

/-- One pass of `process_syncronization` (`main.py`) in its single-threaded
path (`number_of_threads = 1`): both trees are enumerated up front
(`get_items_chunks` with one chunk returns the flat listing), then
`process_without_threads` runs propagate and prune. -/
def sync_pass (src rep : FS) : FS × List Op × Option Err :=
  process_without_threads (listPaths src) (listPaths rep) src rep

/-- Model of the Python slice `seq[start::step]` used by `chunk_list`:
`stepTake step l k` skips `k` elements, takes one, then repeats with gap
`step`. -/
def stepTake (step : Nat) : List α → Nat → List α
  | [], _ => []
  | x :: xs, 0 => x :: stepTake step xs (step - 1)
  | _ :: xs, k + 1 => stepTake step xs k

/-- The slice `seq[start::step]`. -/
def pySlice (seq : List α) (start step : Nat) : List α :=
  stepTake step (seq.drop start) 0

/-- Model of `chunk_list` (`utils.py`): `[seq[i::size] for i in range(size)]`. -/
def chunk_list (seq : List α) (size : Nat) : List (List α) :=
  (List.range size).map (fun i => pySlice seq i size)

/-- Tag of copy invocations, for counting Replicator invocations. -/
def isCopyOp : Op → Bool
  | Op.copy _ _ _ => true
  | _ => false

/-- Tag of deletion operations (file unlink or directory removal). -/
def isDeleteOp : Op → Bool
  | Op.unlink _ => true
  | Op.rmdir _ => true
  | _ => false

/-- Tag of checksum computations. -/
def isChecksumOp : Op → Bool
  | Op.checksum _ => true
  | _ => false

/-- An operation that is neither a copy invocation nor a deletion. -/
def opBenign (o : Op) : Bool := !isCopyOp o && !isDeleteOp o

/-- Entry-granularity event of one pass, for the phase-ordering model of
`process_with_threads` and `process_without_threads` (`main.py`): `prop p`
marks the handling of source entry `p` by `synchronize_folders`, `prune p`
the handling of replica entry `p` by `clean_up_replica`.  The process-wide
lock makes one entry's handling the unit of interleaving. -/
inductive Ev where
  | prop (p : Path)
  | prune (p : Path)
deriving DecidableEq, Repr

/-- Tag of propagate events. -/
def isPropEv : Ev → Bool
  | Ev.prop _ => true
  | Ev.prune _ => false

/-- Events of one `synchronize_folders` thread over its chunk, in program
order. -/
def syncTrace (chunk : List Path) : List Ev := chunk.map Ev.prop

/-- Events of one `clean_up_replica` thread over its chunk, in program
order. -/
def cleanTrace (chunk : List Path) : List Ev := chunk.map Ev.prune

/-- The threads started by one round of `process_with_threads` (`main.py`,
lines 95-104 and again 112-121): one propagate thread per source chunk and
one prune thread per replica chunk, all started before any is joined. -/
def roundThreads (source_items replica_items : List (List Path)) : List (List Ev) :=
  source_items.map syncTrace ++ replica_items.map cleanTrace

/-- Interleaving relation: `Merge ts s` holds when `s` is an interleaving of the thread traces
`ts`: at each step the scheduler runs the next event of any thread, and the
schedule ends when every thread is exhausted.  This is exactly the set of
event orders the thread pool admits between a common start and a common
join. -/
inductive Merge : List (List Ev) → List Ev → Prop
  | nil (ts : List (List Ev)) (h : ∀ t ∈ ts, t = []) : Merge ts []
  | step (ts : List (List Ev)) (i : Nat) (e : Ev) (rest : List Ev) (s : List Ev)
      (hi : ts.get? i = some (e :: rest)) (hm : Merge (ts.set i rest) s) :
      Merge ts (e :: s)

/-- Schedules of `process_with_threads`: a first round (propagate and prune
threads all started, then all joined) followed by a second identical round. -/
def ScheduleWith (source_items replica_items : List (List Path)) (s : List Ev) : Prop :=
  ∃ s1 s2, s = s1 ++ s2
    ∧ Merge (roundThreads source_items replica_items) s1
    ∧ Merge (roundThreads source_items replica_items) s2

/-- The unique schedule of `process_without_threads`: the whole propagate
phase, then the whole prune phase. -/
def scheduleWithout (source_items replica_items : List Path) : List Ev :=
  syncTrace source_items ++ cleanTrace replica_items

/-- The Propagate→Prune barrier held on a schedule: after the leading
propagate events no propagate event occurs, i.e. every propagate operation
precedes every prune operation. -/
def barrierOK (s : List Ev) : Bool :=
  (s.dropWhile isPropEv).all (fun e => !isPropEv e)

/-- Source tree of the idempotence counterexample: a directory `p`
containing one file `q`. -/
def srcC7 : FS := [("p", FNode.dir [("q", FNode.file "X")])]

/-- Replica tree of the idempotence counterexample: a plain file at `p`,
where the source has a directory. -/
def repC7 : FS := [("p", FNode.file "W")]

/-- Source tree of the partial-failure counterexample: two files `a`, `b`. -/
def srcC2 : FS := [("a", FNode.file "X"), ("b", FNode.file "Y")]

/-- Replica tree of the partial-failure counterexample: a directory at `a`,
so that `calculate_checksum` on the replica side raises. -/
def repC2 : FS := [("a", FNode.dir [])]

/-- Skipping `k` elements up front is the same as dropping them first. -/
theorem stepTake_eq_drop (s : Nat) : ∀ (k : Nat) (l : List α),
    stepTake s l k = stepTake s (l.drop k) 0 := by
  intro k
  induction k with
  | zero => intro l; rw [List.drop_zero]
  | succ k ih =>
    intro l
    cases l with
    | nil => simp [stepTake]
    | cons x xs => rw [List.drop_succ_cons, stepTake, ih]

/-- Element `k` of the slice `stepTake (n+1) l c` is element `c + k * (n+1)`
of `l`. -/
theorem stepTake_get? (n : Nat) : ∀ (l : List α) (c k : Nat),
    (stepTake (n + 1) l c).get? k = l.get? (c + k * (n + 1)) := by
  intro l
  induction l with
  | nil => intro c k; simp [stepTake]
  | cons x xs ih =>
    intro c k
    cases c with
    | zero =>
      cases k with
      | zero => simp [stepTake]
      | succ k =>
        rw [stepTake]
        show (stepTake (n + 1) xs n).get? k = (x :: xs).get? (0 + (k + 1) * (n + 1))
        rw [ih n k]
        have h : 0 + (k + 1) * (n + 1) = (n + k * (n + 1)) + 1 := by ring
        rw [h, List.get?_cons_succ]
    | succ c =>
      rw [stepTake, ih c k]
      have h : c + 1 + k * (n + 1) = (c + k * (n + 1)) + 1 := by ring
      rw [h, List.get?_cons_succ]

/-- Taking every element (`step = 1`, no skips) returns the list itself. -/
theorem stepTake_one : ∀ (l : List α), stepTake 1 l 0 = l := by
  intro l
  induction l with
  | nil => rfl
  | cons x xs ih => rw [stepTake, ih]

/-- The first slice of `x :: xs` is `x` followed by the last slice of `xs`,
and slice `i+1` of `x :: xs` is slice `i` of `xs`: consing one element
rotates the round-robin chunks. -/
theorem chunk_list_cons (x : α) (xs : List α) (m : Nat) :
    chunk_list (x :: xs) (m + 1)
      = (x :: pySlice xs m (m + 1)) :: (List.range m).map (fun i => pySlice xs i (m + 1)) := by
  rw [chunk_list, List.range_succ_eq_map, List.map_cons, List.map_map]
  have h0 : pySlice (x :: xs) 0 (m + 1) = x :: pySlice xs m (m + 1) := by
    show stepTake (m + 1) (x :: xs) 0 = _
    rw [stepTake, stepTake_eq_drop]
    rfl
  rw [h0]
  rfl

/-- Splitting the chunks of `xs` at the last chunk. -/
theorem chunk_list_last (xs : List α) (m : Nat) :
    chunk_list xs (m + 1)
      = (List.range m).map (fun i => pySlice xs i (m + 1)) ++ [pySlice xs m (m + 1)] := by
  rw [chunk_list, List.range_succ, List.map_append, List.map_singleton]

/-- Concatenating the round-robin chunks permutes the original list. -/
theorem chunk_list_flatten_perm (m : Nat) : ∀ (seq : List α),
    ((chunk_list seq (m + 1)).flatten).Perm seq := by
  intro seq
  induction seq with
  | nil =>
    have h : chunk_list ([] : List α) (m + 1) = (List.range (m + 1)).map (fun _ => []) := by
      rw [chunk_list]
      apply List.map_congr_left
      intro i _
      simp [pySlice, stepTake]
    rw [h]
    have h2 : ((List.range (m + 1)).map (fun _ => ([] : List α))).flatten = [] := by
      simp
    rw [h2]
  | cons y ys ih =>
    rw [chunk_list_cons]
    rw [List.flatten_cons, List.cons_append]
    refine List.Perm.cons y ?_
    have hsplit : ((chunk_list ys (m + 1)).flatten).Perm
        (pySlice ys m (m + 1) ++ ((List.range m).map (fun i => pySlice ys i (m + 1))).flatten) := by
      rw [chunk_list_last, List.flatten_append, List.flatten_cons, List.flatten_nil,
        List.append_nil]
      exact List.perm_append_comm
    exact (hsplit.symm.trans ih)

/-- Claim C6.  For every entry list and every worker count `n ≥ 1` the
round-robin partition `chunk_list` is exact: it yields `n` chunks whose
concatenation is a permutation of the original list (no duplicates, no
omissions), and for `n = 1` the result is the single chunk equal to the full
list. -/
theorem c6_partition_exact {α : Type} (seq : List α) (n : Nat) (h : 1 ≤ n) :
    ((chunk_list seq n).length = n ∧ ((chunk_list seq n).flatten).Perm seq)
      ∧ chunk_list seq 1 = [seq] := by
  obtain ⟨m, rfl⟩ : ∃ m, n = m + 1 := ⟨n - 1, by omega⟩
  refine ⟨⟨by simp [chunk_list], chunk_list_flatten_perm m seq⟩, ?_⟩
  have h1 : chunk_list seq 1 = [pySlice seq 0 1] := by
    rw [chunk_list]
    rfl
  rw [h1, pySlice, List.drop_zero, stepTake_one]

/-- Witness for C6 at a concrete list and worker count. -/
theorem c6_partition_exact_witness :
    ((chunk_list [10, 20, 30, 40, 50] 2).length = 2
        ∧ ((chunk_list [10, 20, 30, 40, 50] 2).flatten).Perm [10, 20, 30, 40, 50])
      ∧ chunk_list [10, 20, 30, 40, 50] 1 = [[10, 20, 30, 40, 50]] :=
  c6_partition_exact [10, 20, 30, 40, 50] 2 (by decide)

/-- Claim C9.  Round-robin partitioning preserves within-chunk order: for
`1 ≤ n` and `j < n`, chunk `j` is exactly the subsequence of elements at
indices `j`, `j + n`, `j + 2n`, … of the original list, in that order. -/
theorem c9_chunk_order {α : Type} (seq : List α) (n j k : Nat)
    (hn : 1 ≤ n) (hj : j < n) :
    ((chunk_list seq n).getD j []).get? k = seq.get? (j + k * n) := by
  obtain ⟨m, rfl⟩ : ∃ m, n = m + 1 := ⟨n - 1, by omega⟩
  have hchunk : (chunk_list seq (m + 1)).getD j [] = pySlice seq j (m + 1) := by
    show (((List.range (m + 1)).map (fun i => pySlice seq i (m + 1))).get? j).getD [] = _
    rw [List.get?_map, List.get?_range hj]
    rfl
  rw [hchunk, pySlice, stepTake_get?, List.get?_drop]
  congr 1
  omega

/-- Witness for C9: chunk 1 of a 2-way split, element 1, is element 3 of the
original list. -/
theorem c9_chunk_order_witness :
    ((chunk_list [10, 20, 30, 40, 50] 2).getD 1 []).get? 1
      = [10, 20, 30, 40, 50].get? (1 + 1 * 2) :=
  c9_chunk_order [10, 20, 30, 40, 50] 2 1 1 (by decide) (by decide)

/-- Counting the image of an entry under an injective event constructor in a
mapped trace counts the entry in the chunk. -/
theorem count_map_inj (f : Path → Ev) (hf : ∀ u v, f u = f v → u = v)
    (c : List Path) (p : Path) : (c.map f).count (f p) = c.count p := by
  induction c with
  | nil => rfl
  | cons q qs ih =>
    rw [List.map_cons, List.count_cons, List.count_cons, ih]
    by_cases h : q = p
    · subst h; simp
    · have hne : f q ≠ f p := fun hc => h (hf _ _ hc)
      simp [h, hne]

/-- Updating one thread's trace changes a summed statistic by the difference
at that thread. -/
theorem sum_map_set (f : List Ev → Nat) : ∀ (ts : List (List Ev)) (i : Nat) (x y : List Ev),
    ts.get? i = some x → ((ts.set i y).map f).sum + f x = (ts.map f).sum + f y := by
  intro ts
  induction ts with
  | nil => intro i x y h; simp at h
  | cons t ts ih =>
    intro i x y h
    cases i with
    | zero =>
      rw [List.get?_cons_zero, Option.some_inj] at h
      subst h
      rw [List.set_cons_zero, List.map_cons, List.sum_cons, List.map_cons, List.sum_cons]
      omega
    | succ i =>
      rw [List.get?_cons_succ] at h
      have hx := ih i x y h
      rw [List.set_cons_succ, List.map_cons, List.sum_cons, List.map_cons, List.sum_cons]
      omega

/-- In any interleaving of the thread traces, every event occurs exactly as
often as it occurs across the threads together. -/
theorem merge_count {ts : List (List Ev)} {s : List Ev} (h : Merge ts s) :
    ∀ e, s.count e = (ts.map (fun t => t.count e)).sum := by
  induction h with
  | nil ts h =>
    intro e
    rw [List.count_nil]
    symm
    apply List.sum_eq_zero
    intro x hx
    rcases List.mem_map.1 hx with ⟨t, ht, rfl⟩
    rw [h t ht, List.count_nil]
  | step ts i ev rest s hi hm ih =>
    intro e
    have hset := sum_map_set (fun t => t.count e) ts i (ev :: rest) rest hi
    simp only [] at hset
    have hcount : (ev :: rest).count e = rest.count e + if ev = e then 1 else 0 := by
      by_cases hcase : ev = e
      · subst hcase; simp
      · simp [List.count_cons, hcase]
    have hcount2 : (ev :: s).count e = s.count e + if ev = e then 1 else 0 := by
      by_cases hcase : ev = e
      · subst hcase; simp
      · simp [List.count_cons, hcase]
    have hih := ih e
    omega

/-- Propagate events of one round: their total count for entry `p` is the
number of occurrences of `p` across the source chunks. -/
theorem roundThreads_count_prop (source_items replica_items : List (List Path)) (p : Path) :
    ((roundThreads source_items replica_items).map (fun t => t.count (Ev.prop p))).sum
      = (source_items.map (fun c => c.count p)).sum := by
  rw [roundThreads, List.map_append, List.sum_append]
  have h1 : (source_items.map syncTrace).map (fun t => t.count (Ev.prop p))
      = source_items.map (fun c => c.count p) := by
    rw [List.map_map]
    apply List.map_congr_left
    intro c _
    exact count_map_inj Ev.prop (fun u v h => by cases h; rfl) c p
  have h2 : ((replica_items.map cleanTrace).map (fun t => t.count (Ev.prop p))).sum = 0 := by
    apply List.sum_eq_zero
    intro x hx
    rcases List.mem_map.1 hx with ⟨t, ht, rfl⟩
    rcases List.mem_map.1 ht with ⟨c, hc, rfl⟩
    rw [List.count_eq_zero]
    intro hmem
    rcases List.mem_map.1 hmem with ⟨q, hq, habs⟩
    cases habs
  rw [h1, h2]
  omega

/-- Prune events of one round: their total count for entry `p` is the number
of occurrences of `p` across the replica chunks. -/
theorem roundThreads_count_prune (source_items replica_items : List (List Path)) (p : Path) :
    ((roundThreads source_items replica_items).map (fun t => t.count (Ev.prune p))).sum
      = (replica_items.map (fun c => c.count p)).sum := by
  rw [roundThreads, List.map_append, List.sum_append]
  have h1 : ((source_items.map syncTrace).map (fun t => t.count (Ev.prune p))).sum = 0 := by
    apply List.sum_eq_zero
    intro x hx
    rcases List.mem_map.1 hx with ⟨t, ht, rfl⟩
    rcases List.mem_map.1 ht with ⟨c, hc, rfl⟩
    rw [List.count_eq_zero]
    intro hmem
    rcases List.mem_map.1 hmem with ⟨q, hq, habs⟩
    cases habs
  have h2 : (replica_items.map cleanTrace).map (fun t => t.count (Ev.prune p))
      = replica_items.map (fun c => c.count p) := by
    rw [List.map_map]
    apply List.map_congr_left
    intro c _
    exact count_map_inj Ev.prune (fun u v h => by cases h; rfl) c p
  rw [h1, h2]
  omega

/-- Claim C1, counterexample.  With one source chunk `[a]` and one replica
chunk `[b]`, the worker pool admits the schedule `prune b, prop a, prop a,
prune b`, in which a prune deletion begins before the propagate work has
completed: the Propagate→Prune transition is not a barrier in the
worker-pool path. -/
theorem c1_barrier_counterexample :
    ScheduleWith [[["a"]]] [[["b"]]]
        [Ev.prune ["b"], Ev.prop ["a"], Ev.prop ["a"], Ev.prune ["b"]]
      ∧ barrierOK [Ev.prune ["b"], Ev.prop ["a"], Ev.prop ["a"], Ev.prune ["b"]] = false := by
  constructor
  · refine ⟨[Ev.prune ["b"], Ev.prop ["a"]], [Ev.prop ["a"], Ev.prune ["b"]], rfl, ?_, ?_⟩
    · refine Merge.step _ 1 (Ev.prune ["b"]) [] _ rfl ?_
      refine Merge.step _ 0 (Ev.prop ["a"]) [] _ rfl ?_
      exact Merge.nil _ (by decide)
    · refine Merge.step _ 0 (Ev.prop ["a"]) [] _ rfl ?_
      refine Merge.step _ 1 (Ev.prune ["b"]) [] _ rfl ?_
      exact Merge.nil _ (by decide)
  · decide

/-- Claim C1, amended.  Only the single-threaded execution path realises the
Propagate→Prune full barrier: its schedule runs every propagate operation
before any prune operation.  (In the worker-pool path propagate and prune
threads of a round run concurrently, see the counterexample.) -/
theorem c1_barrier_single_threaded (source_items replica_items : List Path) :
    barrierOK (scheduleWithout source_items replica_items) = true := by
  induction source_items with
  | nil =>
    cases replica_items with
    | nil => rfl
    | cons b bs =>
      rw [scheduleWithout, syncTrace, cleanTrace]
      rw [List.map_nil, List.nil_append, List.map_cons]
      rw [barrierOK]
      rw [List.dropWhile_cons]
      simp only [isPropEv, Bool.false_eq_true, if_false]
      rw [List.all_cons]
      simp only [isPropEv, Bool.not_false, Bool.true_and]
      rw [List.all_eq_true]
      intro e he
      rcases List.mem_map.1 he with ⟨q, hq, rfl⟩
      rfl
  | cons a as ih =>
    rw [scheduleWithout, syncTrace, List.map_cons, List.cons_append, barrierOK,
      List.dropWhile_cons]
    simp only [isPropEv, if_true]
    exact ih

/-- Claim C4.  Every schedule of the worker-pool path runs each propagate
entry and each prune entry exactly twice (both phases executed twice per
pass), while the single-threaded path runs each exactly once. -/
theorem c4_double_execution (source_items replica_items : List (List Path)) (s : List Ev)
    (hs : ScheduleWith source_items replica_items s) :
    ∀ (p : Path) (a b : List Path),
      s.count (Ev.prop p) = 2 * (source_items.map (fun c => c.count p)).sum
      ∧ s.count (Ev.prune p) = 2 * (replica_items.map (fun c => c.count p)).sum
      ∧ (scheduleWithout a b).count (Ev.prop p) = a.count p
      ∧ (scheduleWithout a b).count (Ev.prune p) = b.count p := by
  intro p a b
  rcases hs with ⟨s1, s2, rfl, h1, h2⟩
  have hwo_prop : (scheduleWithout a b).count (Ev.prop p) = a.count p := by
    rw [scheduleWithout, List.count_append]
    have ha : (syncTrace a).count (Ev.prop p) = a.count p :=
      count_map_inj Ev.prop (fun u v h => by cases h; rfl) a p
    have hb : (cleanTrace b).count (Ev.prop p) = 0 := by
      rw [List.count_eq_zero]
      intro hmem
      rcases List.mem_map.1 hmem with ⟨q, hq, habs⟩
      cases habs
    rw [ha, hb]
    omega
  have hwo_prune : (scheduleWithout a b).count (Ev.prune p) = b.count p := by
    rw [scheduleWithout, List.count_append]
    have ha : (syncTrace a).count (Ev.prune p) = 0 := by
      rw [List.count_eq_zero]
      intro hmem
      rcases List.mem_map.1 hmem with ⟨q, hq, habs⟩
      cases habs
    have hb : (cleanTrace b).count (Ev.prune p) = b.count p :=
      count_map_inj Ev.prune (fun u v h => by cases h; rfl) b p
    rw [ha, hb]
    omega
  refine ⟨?_, ?_, hwo_prop, hwo_prune⟩
  · rw [List.count_append, merge_count h1, merge_count h2,
      roundThreads_count_prop source_items replica_items p]
    omega
  · rw [List.count_append, merge_count h1, merge_count h2,
      roundThreads_count_prune source_items replica_items p]
    omega

/-- Witness for C4: a concrete worker-pool schedule of one source chunk and
one replica chunk runs the propagate entry twice and the prune entry twice,
while the single-threaded schedule over given lists runs entries once. -/
theorem c4_double_execution_witness :
    ([Ev.prop ["a"], Ev.prune ["b"], Ev.prop ["a"], Ev.prune ["b"]].count (Ev.prop ["a"])
        = 2 * (([[["a"]]] : List (List Path)).map (fun c => c.count ["a"])).sum)
      ∧ ([Ev.prop ["a"], Ev.prune ["b"], Ev.prop ["a"], Ev.prune ["b"]].count (Ev.prune ["a"])
        = 2 * (([[["b"]]] : List (List Path)).map (fun c => c.count ["a"])).sum)
      ∧ (scheduleWithout [["x"]] []).count (Ev.prop ["a"]) = ([["x"]] : List Path).count ["a"]
      ∧ (scheduleWithout [["x"]] []).count (Ev.prune ["a"]) = ([] : List Path).count ["a"] := by
  have hm : Merge (roundThreads [[["a"]]] [[["b"]]]) [Ev.prop ["a"], Ev.prune ["b"]] := by
    refine Merge.step _ 0 (Ev.prop ["a"]) [] _ rfl ?_
    refine Merge.step _ 1 (Ev.prune ["b"]) [] _ rfl ?_
    exact Merge.nil _ (by decide)
  exact c4_double_execution [[["a"]]] [[["b"]]] _
    ⟨[Ev.prop ["a"], Ev.prune ["b"]], [Ev.prop ["a"], Ev.prune ["b"]], rfl, hm, hm⟩
    ["a"] [["x"]] []

/-- The trailing handlers of `delete_path` swallow every exception: the
function always returns normally. -/
theorem delete_path_err_none (fs : FS) (p : Path) : (delete_path fs p).2.2 = none := rfl

/-- On an already-absent target `delete_path` is a silent no-op: the path is
neither a file nor a directory, so the body falls through, and a concurrent
`FileNotFoundError` would be caught by the handler. -/
theorem delete_path_absent (fs : FS) (p : Path) (h : findIn fs p = none) :
    delete_path fs p = (fs, [], none) := by
  simp [delete_path, h]

/-- One prune-loop iteration never raises. -/
theorem clean_step_err_none (src rep : FS) (p : Path) :
    (clean_step src rep p).2.2 = none := by
  rw [clean_step]
  split
  · rfl
  · exact delete_path_err_none rep p

/-- The whole prune loop never raises, for any chunk and any trees. -/
theorem clean_up_replica_err_none : ∀ (items : List Path) (src rep : FS),
    (clean_up_replica items src rep).2.2 = none := by
  intro items
  induction items with
  | nil => intro src rep; rfl
  | cons p rest ih =>
    intro src rep
    have h := clean_step_err_none src rep p
    rcases hcs : clean_step src rep p with ⟨rep1, o1, e1⟩
    rw [hcs] at h
    simp only at h
    subst h
    rcases hr : clean_up_replica rest src rep1 with ⟨rep2, o2, e2⟩
    have h2 := ih src rep1
    rw [hr] at h2
    simp only at h2
    simp only [clean_up_replica, hcs, hr]
    exact h2

/-- The copy routine never raises: its whole body sits in a catch-all
`try/except` that only logs. -/
theorem copy_err_none (src rep : FS) (sp dp : Path) (r : Bool) :
    (copy_or_replace_file src rep sp dp r).2.2 = none := rfl

/-- When handling one entry raises, `synchronize_folders` stops right there:
the result does not depend on the remaining entries of the chunk. -/
theorem sync_aborts (src rep : FS) (p : Path) (rest : List Path)
    (rep1 : FS) (o1 : List Op) (e : Err)
    (h : sync_step src rep p = (rep1, o1, some e)) :
    synchronize_folders (p :: rest) src rep = (rep1, o1, some e) := by
  simp only [synchronize_folders, h]

/-- Claim C2, counterexample.  Source holds files `a` and `b`; the replica
holds a directory at `a`.  Handling `a` raises inside `calculate_checksum`
(the replica path opened for reading is a directory), the exception escapes
`synchronize_folders`, and entry `b` of the same chunk is never processed:
the replica still has nothing at `b` afterwards. -/
theorem c2_isolation_counterexample :
    synchronize_folders [["a"], ["b"]] srcC2 repC2
        = (repC2, [Op.checksum ["a"], Op.checksum ["a"]], some Err.isADirectory)
      ∧ findIn repC2 ["b"] = none := by
  exact ⟨rfl, rfl⟩

/-- Claim C2, amended.  Failure containment holds per entry only where the
code installs a handler: the prune loop never raises (deletion errors are
caught inside `delete_path`) and the copy routine never raises (errors are
caught inside `copy_or_replace_file`); but an exception escaping an entry in
the propagate loop — a checksum or directory-creation failure — aborts the
remaining entries of that chunk. -/
theorem c2_isolation_amended :
    (∀ (items : List Path) (src rep : FS), (clean_up_replica items src rep).2.2 = none)
    ∧ (∀ (src rep : FS) (sp dp : Path) (r : Bool),
        (copy_or_replace_file src rep sp dp r).2.2 = none)
    ∧ (∀ (src rep : FS) (p : Path) (rest : List Path) (rep1 : FS) (o1 : List Op) (e : Err),
        sync_step src rep p = (rep1, o1, some e) →
        synchronize_folders (p :: rest) src rep = (rep1, o1, some e)) :=
  ⟨clean_up_replica_err_none, copy_err_none, sync_aborts⟩

/-- Witness for the amended C2 at concrete inputs. -/
theorem c2_isolation_amended_witness :
    (clean_up_replica [["a"]] srcC2 repC2).2.2 = none
    ∧ (copy_or_replace_file srcC2 repC2 ["a"] ["a"] false).2.2 = none
    ∧ synchronize_folders [["a"]] srcC2 repC2
        = (repC2, [Op.checksum ["a"], Op.checksum ["a"]], some Err.isADirectory) :=
  ⟨c2_isolation_amended.1 [["a"]] srcC2 repC2,
   c2_isolation_amended.2.1 srcC2 repC2 ["a"] ["a"] false,
   c2_isolation_amended.2.2 srcC2 repC2 ["a"] [] repC2
     [Op.checksum ["a"], Op.checksum ["a"]] Err.isADirectory rfl⟩

/-- Claim C3.  The underlying read of the copy fails (`FileNotFoundError`:
the source file is absent), yet `replicate_file` returns normally — the
error is swallowed inside `copy_or_replace_file`, contradicting both the
claimed propagation and the docstrings of `copy_or_replace_file` and
`replicate_file`. -/
theorem c3_copy_error_swallowed :
    openRead ([] : FS) ["a"] = Except.error Err.fileNotFound
      ∧ replicate_file ([] : FS) ([] : FS) ["a"] ["a"]
        = ([], [Op.copy ["a"] ["a"] false], none) :=
  ⟨rfl, rfl⟩

/-- Claim C5.  The decision of `replicate_file`: replica absent → one
unconditional copy with no digest computed; replica present → digests of
both paths computed, copy (with overwrite) exactly when they differ, no
operation when they are equal. -/
theorem c5_replicate_decision (src rep : FS) (sp dp : Path) :
    (pathExists rep dp = false →
        replicate_file src rep sp dp = copy_or_replace_file src rep sp dp false
        ∧ (replicate_file src rep sp dp).2.1.all (fun o => !isChecksumOp o) = true)
    ∧ (pathExists rep dp = true →
        ∀ d1 d2, calculate_checksum src sp = Except.ok d1 →
          calculate_checksum rep dp = Except.ok d2 →
          (d1 = d2 →
            replicate_file src rep sp dp = (rep, [Op.checksum sp, Op.checksum dp], none))
          ∧ (d1 ≠ d2 →
            replicate_file src rep sp dp
              = ((copy_or_replace_file src rep sp dp true).1,
                 [Op.checksum sp, Op.checksum dp]
                   ++ (copy_or_replace_file src rep sp dp true).2.1,
                 (copy_or_replace_file src rep sp dp true).2.2))) := by
  constructor
  · intro h
    constructor
    · simp [replicate_file, h]
    · simp [replicate_file, h, copy_or_replace_file, isChecksumOp]
  · intro h d1 d2 h1 h2
    constructor
    · intro heq
      subst heq
      simp [replicate_file, h, h1, h2]
    · intro hne
      simp [replicate_file, h, h1, h2, hne]

/-- Witness for C5: the copy branch at an absent replica path, and the
digest-equal no-op branch. -/
theorem c5_replicate_decision_witness :
    replicate_file [("a", FNode.file "X")] [] ["a"] ["a"]
        = copy_or_replace_file [("a", FNode.file "X")] [] ["a"] ["a"] false
      ∧ replicate_file [("a", FNode.file "X")] [("a", FNode.file "X")] ["a"] ["a"]
        = ([("a", FNode.file "X")], [Op.checksum ["a"], Op.checksum ["a"]], none) :=
  ⟨((c5_replicate_decision [("a", FNode.file "X")] [] ["a"] ["a"]).1 rfl).1,
   ((c5_replicate_decision [("a", FNode.file "X")] [("a", FNode.file "X")] ["a"] ["a"]).2
      rfl "X" "X" rfl rfl).1 rfl⟩

/-- Handling one entry of the propagate loop when replica equals source:
the state is unchanged, nothing is raised, and only benign operations (at
most two checksum computations) are performed. -/
theorem sync_step_self (src : FS) (p : Path) :
    ∃ o, sync_step src src p = (src, o, none) ∧ o.all opBenign = true := by
  cases h : findIn src p with
  | none =>
    refine ⟨[], ?_, rfl⟩
    simp [sync_step, is_dir, is_file, h]
  | some node =>
    cases node with
    | dir cs =>
      refine ⟨[], ?_, rfl⟩
      have hd : is_dir src p = true := by simp [is_dir, h]
      have hex : pathExists src p = true := by simp [pathExists, h]
      simp [sync_step, hd, create_folder, hex]
    | file c =>
      refine ⟨[Op.checksum p, Op.checksum p], ?_, rfl⟩
      have hd : is_dir src p = false := by simp [is_dir, h]
      have hf : is_file src p = true := by simp [is_file, h]
      have hex : pathExists src p = true := by simp [pathExists, h]
      have hck : calculate_checksum src p = Except.ok c := by
        simp [calculate_checksum, openRead, h]
      simp [sync_step, hd, hf, replicate_file, hex, hck]

/-- The whole propagate phase when replica equals source: state unchanged,
no exception, only benign operations. -/
theorem synchronize_folders_self : ∀ (items : List Path) (src : FS),
    ∃ o, synchronize_folders items src src = (src, o, none) ∧ o.all opBenign = true := by
  intro items
  induction items with
  | nil => intro src; exact ⟨[], rfl, rfl⟩
  | cons p rest ih =>
    intro src
    obtain ⟨o1, h1, b1⟩ := sync_step_self src p
    obtain ⟨o2, h2, b2⟩ := ih src
    refine ⟨o1 ++ o2, ?_, ?_⟩
    · simp only [synchronize_folders, h1, h2]
    · rw [List.all_append, b1, b2]
      rfl

/-- The whole prune phase when replica equals source: every replica entry
still exists in source, so nothing is deleted and no operation occurs. -/
theorem clean_up_replica_self : ∀ (items : List Path) (src : FS),
    clean_up_replica items src src = (src, [], none) := by
  intro items
  induction items with
  | nil => intro src; rfl
  | cons p rest ih =>
    intro src
    by_cases hp : pathExists src p = true
    · simp only [clean_up_replica, clean_step, hp, if_true, ih src]
      rfl
    · have hfalse : pathExists src p = false := by
        cases hcase : pathExists src p
        · rfl
        · exact absurd hcase hp
      have hnone : findIn src p = none := by
        rw [pathExists] at hfalse
        exact Option.not_isSome_iff_eq_none.1 (by simp [hfalse])
      simp only [clean_up_replica, clean_step, hfalse, Bool.false_eq_true, if_false,
        delete_path_absent src p hnone, ih src]
      rfl

/-- Claim C7, amended.  When the replica tree is identical to the source
tree — the state a fully converged pass leaves behind — a pass performs zero
copy invocations and zero deletions: it completes without error, leaves the
replica untouched, and every operation it performs is benign (a digest
computation). -/
theorem c7_idempotence_amended (src : FS) :
    (sync_pass src src).1 = src ∧ (sync_pass src src).2.2 = none
      ∧ (sync_pass src src).2.1.all opBenign = true := by
  obtain ⟨o, hs, hb⟩ := synchronize_folders_self (listPaths src) src
  have hc := clean_up_replica_self (listPaths src) src
  rw [sync_pass]
  simp [process_without_threads, hs, hc, hb]

/-- Claim C7, counterexample.  Source is a directory `p` containing file
`p/q`; the replica has a plain file at `p`.  The first pass completes
normally (the failing copy of `p/q` is swallowed inside
`copy_or_replace_file`) and leaves the replica unchanged, so the second pass
— the same computation on the same state — again performs a copy
invocation: a completed pass is not enough for the next pass to perform
zero copy operations. -/
theorem c7_idempotence_counterexample :
    (sync_pass srcC7 repC7).1 = repC7 ∧ (sync_pass srcC7 repC7).2.2 = none
      ∧ (sync_pass srcC7 repC7).2.1.any isCopyOp = true := by
  have h1 : listPaths srcC7 = [["p"], ["p", "q"]] := by
    simp [listPaths, srcC7, listPathsFrom]
  have h2 : listPaths repC7 = [["p"]] := by
    simp [listPaths, repC7, listPathsFrom]
  refine ⟨?_, ?_, ?_⟩
  · rw [sync_pass, h1, h2]; rfl
  · rw [sync_pass, h1, h2]; rfl
  · rw [sync_pass, h1, h2]; rfl

/-- Claim C8.  `delete_path` is total with respect to errors: it always
returns normally (every exception is caught by its handlers), an
already-absent target is a silent no-op, and consequently the prune loop
`clean_up_replica` never sees an exception from a deletion. -/
theorem c8_delete_path_total (fs : FS) (p : Path) (items : List Path) (src rep : FS) :
    (delete_path fs p).2.2 = none
    ∧ (findIn fs p = none → delete_path fs p = (fs, [], none))
    ∧ (clean_up_replica items src rep).2.2 = none :=
  ⟨delete_path_err_none fs p, delete_path_absent fs p,
   clean_up_replica_err_none items src rep⟩

/-- Witness for C8: deletion of an absent path returns normally and changes
nothing; a prune chunk whose entry triggers an actual deletion also raises
nothing. -/
theorem c8_delete_path_total_witness :
    (delete_path [("a", FNode.file "X")] ["b"]).2.2 = none
    ∧ delete_path [("a", FNode.file "X")] ["b"] = ([("a", FNode.file "X")], [], none)
    ∧ (clean_up_replica [["a"]] [] [("a", FNode.file "X")]).2.2 = none :=
  ⟨(c8_delete_path_total [("a", FNode.file "X")] ["b"] [["a"]] [] [("a", FNode.file "X")]).1,
   (c8_delete_path_total [("a", FNode.file "X")] ["b"] [["a"]] [] [("a", FNode.file "X")]).2.1 rfl,
   (c8_delete_path_total [("a", FNode.file "X")] ["b"] [["a"]] [] [("a", FNode.file "X")]).2.2⟩

/-- Claim C10.  A source entry that is neither an existing directory nor an
existing regular file at processing time is silently skipped by the
propagate loop: no replica operation, no error, and processing continues
with the remaining entries exactly as if the entry were not there. -/
theorem c10_skip_vanished (src rep : FS) (p : Path) (rest : List Path)
    (h1 : is_dir src p = false) (h2 : is_file src p = false) :
    synchronize_folders (p :: rest) src rep = synchronize_folders rest src rep := by
  have hstep : sync_step src rep p = (rep, [], none) := by
    simp [sync_step, h1, h2]
  simp only [synchronize_folders, hstep]
  rcases hr : synchronize_folders rest src rep with ⟨a, b, c⟩
  simp

/-- Witness for C10: an entry absent from the source tree is skipped. -/
theorem c10_skip_vanished_witness :
    synchronize_folders [["z"]] [("a", FNode.file "X")] []
      = synchronize_folders [] [("a", FNode.file "X")] [] :=
  c10_skip_vanished [("a", FNode.file "X")] [] ["z"] [] rfl rfl

end FolderSync
